import Mathlib

/-!
Verification of `docs/tools/check_release_docs_links.py`.

A shallow embedding of the release-notes link guard script.  Text snapshots
are Lean `String`s; the multiline-anchored regular expression
`^## \[(\d+\.\d+\.\d+)\] - \d{4}-\d{2}-\d{2}$` is embedded as a per-line
parser (a `re.MULTILINE` `^…$` pattern matches exactly the whole lines
obtained by splitting the content on the newline character).  Python `set`s
of version strings become `Finset String`; Python's `sorted` on strings
(ascending lexicographic comparison of code points) is an insertion sort
with respect to an explicit code-point order.  File reads that may raise
become `Except` values over an explicit error type, and the entry point is
a total function from the environment and repository state to an outcome.
-/

namespace ReleaseGuard

/-! Lines of a snapshot -/

/-- Splitting accumulator: collects the characters of the current line. -/
def splitLinesAux : List Char → List Char → List String
  | [], acc => [String.mk acc.reverse]
  | c :: cs, acc =>
      if c = '\n' then String.mk acc.reverse :: splitLinesAux cs []
      else splitLinesAux cs (c :: acc)

/-- The lines of a text snapshot: the content split on the newline
character, exactly the candidate lines a `re.MULTILINE` anchored pattern
is matched against. -/
def splitLines (s : String) : List String := splitLinesAux s.data []

/-! The heading pattern -/

/-- Consume the expected literal characters from the front, returning the
rest, or `none` on mismatch. -/
def expectChars : List Char → List Char → Option (List Char)
  | [], rest => some rest
  | e :: es, c :: cs => if c = e then expectChars es cs else none
  | _ :: _, [] => none

/-- A maximal nonempty run of decimal digits (the regex `\d+`), together
with the remaining characters; `none` when the input does not start with a
digit. -/
def takeDigits1 (l : List Char) : Option (List Char × List Char) :=
  let ds := l.takeWhile Char.isDigit
  if ds.isEmpty then none else some (ds, l.drop ds.length)

/-- Exactly `n` decimal digits (the regex `\d{n}`); returns the rest. -/
def exactDigits : Nat → List Char → Option (List Char)
  | 0, rest => some rest
  | _ + 1, [] => none
  | n + 1, c :: cs => if c.isDigit then exactDigits n cs else none

/-- The per-line embedding of the heading pattern
`^## \[(\d+\.\d+\.\d+)\] - \d{4}-\d{2}-\d{2}$`: `some v` when the whole
line matches, where `v` is the captured group `\d+\.\d+\.\d+`. -/
def parseHeaderLine (line : String) : Option String :=
  (expectChars ['#', '#', ' ', '['] line.data).bind fun r0 =>
  (takeDigits1 r0).bind fun p1 =>
  (expectChars ['.'] p1.2).bind fun r1 =>
  (takeDigits1 r1).bind fun p2 =>
  (expectChars ['.'] p2.2).bind fun r2 =>
  (takeDigits1 r2).bind fun p3 =>
  (expectChars [']', ' ', '-', ' '] p3.2).bind fun r3 =>
  (exactDigits 4 r3).bind fun r4 =>
  (expectChars ['-'] r4).bind fun r5 =>
  (exactDigits 2 r5).bind fun r6 =>
  (expectChars ['-'] r6).bind fun r7 =>
  (exactDigits 2 r7).bind fun r8 =>
  if r8.isEmpty then
    some (String.mk (p1.1 ++ '.' :: p2.1 ++ '.' :: p3.1))
  else none

/-- The embedding of `extract_version_headers`: all version headers of a
snapshot, in the order they occur (`pattern.findall(content)` with the
multiline pattern). -/
def extract_version_headers (content : String) : List String :=
  (splitLines content).filterMap parseHeaderLine

/-- The version headers of a snapshot as a Python `set`. -/
def versionSet (content : String) : Finset String :=
  (extract_version_headers content).toFinset

/-! Python string order and sorted -/

/-- Lexicographic comparison of character lists by code point: Python's
`<` on strings. -/
def charListLt : List Char → List Char → Bool
  | _, [] => false
  | [], _ :: _ => true
  | a :: as, b :: bs =>
      if a < b then true
      else if b < a then false
      else charListLt as bs

/-- Python's `<` on strings (code-point lexicographic). -/
def strLt (a b : String) : Bool := charListLt a.data b.data

/-- The total order underlying Python's `sorted` on strings:
`a ≤ b` iff `¬ b < a`. -/
def strLe (a b : String) : Prop := strLt b a = false

instance : DecidableRel strLe :=
  fun a b => inferInstanceAs (Decidable (strLt b a = false))

/-- Asymmetry of the code-point comparison. -/
def charListLt_asymm :
    ∀ (as bs : List Char), charListLt as bs = true → charListLt bs as = false
  | _, [], h => by simp [charListLt] at h
  | [], _ :: _, _ => by simp [charListLt]
  | a :: as, b :: bs, h => by
      simp only [charListLt] at h ⊢
      rcases lt_trichotomy a b with hlt | heq | hgt
      · rw [if_neg (lt_asymm hlt), if_pos hlt]
      · subst heq
        rw [if_neg (lt_irrefl a), if_neg (lt_irrefl a)] at h ⊢
        exact charListLt_asymm as bs h
      · rw [if_neg (lt_asymm hgt), if_pos hgt] at h
        simp at h

/-- Connectedness: two lists neither of which is below the other are
equal. -/
def charListLt_eq_of_not :
    ∀ (as bs : List Char), charListLt as bs = false → charListLt bs as = false → as = bs
  | [], [], _, _ => rfl
  | [], _ :: _, h1, _ => by simp [charListLt] at h1
  | _ :: _, [], _, h2 => by simp [charListLt] at h2
  | a :: as, b :: bs, h1, h2 => by
      simp only [charListLt] at h1 h2
      rcases lt_trichotomy a b with hlt | heq | hgt
      · rw [if_pos hlt] at h1; simp at h1
      · subst heq
        rw [if_neg (lt_irrefl a), if_neg (lt_irrefl a)] at h1 h2
        rw [charListLt_eq_of_not as bs h1 h2]
      · rw [if_pos hgt] at h2; simp at h2

/-- Transitivity of the induced "not above" relation. -/
def charListLt_le_trans :
    ∀ (as bs cs : List Char), charListLt bs as = false → charListLt cs bs = false →
      charListLt cs as = false
  | _, [], [], h1, _ => h1
  | _, _ :: _, [], _, h2 => by simp [charListLt] at h2
  | as, [], _ :: _, h1, _ => by
      cases as with
      | nil => simp [charListLt]
      | cons x xs => simp [charListLt] at h1
  | [], _ :: _, _ :: _, _, _ => by simp [charListLt]
  | a :: as, b :: bs, c :: cs, h1, h2 => by
      simp only [charListLt] at h1 h2 ⊢
      have hba : ¬ b < a := by
        intro hh; rw [if_pos hh] at h1; simp at h1
      have hcb : ¬ c < b := by
        intro hh; rw [if_pos hh] at h2; simp at h2
      have hca : ¬ c < a := fun hh => hcb (lt_of_lt_of_le hh (le_of_not_lt hba))
      rw [if_neg hca]
      by_cases hac : a < c
      · rw [if_pos hac]
      · rw [if_neg hac]
        have hab : ¬ a < b := fun hh => hac (lt_of_lt_of_le hh (le_of_not_lt hcb))
        have h1' : charListLt bs as = false := by
          rw [if_neg hba, if_neg hab] at h1; exact h1
        have hbc : ¬ b < c := fun hh => hac (lt_of_le_of_lt (le_of_not_lt hba) hh)
        have h2' : charListLt cs bs = false := by
          rw [if_neg hcb, if_neg hbc] at h2; exact h2
        exact charListLt_le_trans as bs cs h1' h2'

instance : IsTrans String strLe :=
  ⟨fun _ _ _ h1 h2 => charListLt_le_trans _ _ _ h1 h2⟩

instance : IsAntisymm String strLe := by
  refine ⟨fun a b h1 h2 => ?_⟩
  cases a with
  | mk da =>
      cases b with
      | mk db => exact congrArg String.mk (charListLt_eq_of_not da db h2 h1)

instance : IsTotal String strLe := by
  refine ⟨fun a b => ?_⟩
  by_cases h : strLt b a = false
  · exact Or.inl h
  · refine Or.inr ?_
    have h' : strLt b a = true := by
      cases hv : strLt b a with
      | false => exact absurd hv h
      | true => rfl
    exact charListLt_asymm _ _ h'

/-- Python's `sorted` on a multiset of strings: the ascending enumeration
with respect to the code-point lexicographic order. -/
def msort (m : Multiset String) : List String :=
  Quot.liftOn m (fun l => l.insertionSort strLe) fun _ _ h =>
    List.eq_of_perm_of_sorted
      ((List.perm_insertionSort _ _).trans (h.trans (List.perm_insertionSort _ _).symm))
      (List.sorted_insertionSort _ _) (List.sorted_insertionSort _ _)

/-- Python's `sorted` applied to a `set` of version strings. -/
def sortVersions (s : Finset String) : List String := msort s.val

/-! The differ -/

/-- The `try … except subprocess.CalledProcessError` block of
`get_releases_diff`: the base snapshot is `none` when
`git show base_sha:docs/releases/RELEASES.md` failed (the document was
absent at the base revision), which must not raise but produce the empty
version set together with `is_consolidation = True`. -/
def baseSnapshot : Option String → Finset String × Bool
  | some content => (versionSet content, false)
  | none => (∅, true)

/-- Python's `str.lstrip("v")`: remove every leading `'v'` character. -/
def lstripV (s : String) : String :=
  String.mk (s.data.dropWhile (fun c => c = 'v'))

/-- The state of `docs/metadata.json` as `get_releases_diff` consults it:
`none` when `metadata_path.exists()` is false; `some kv` when the file
exists, where `kv` is the value of the `"current_release"` key (`none`
when the key is absent, so that `metadata.get("current_release", "")`
yields `""`). -/
abbrev Metadata := Option (Option String)

/-- The embedding of `get_releases_diff`.  `baseContent` is the result of
the `git show` call on the base revision (`none` = the call raised),
`headContent` the text of `docs/releases/RELEASES.md` at the head,
`metadata` the state of `docs/metadata.json`.  Returns the list of
versions to validate and the consolidation flag. -/
def get_releases_diff (baseContent : Option String) (headContent : String)
    (metadata : Metadata) : List String × Bool :=
  let os := baseSnapshot baseContent
  let old_versions := os.1
  let is_consolidation := os.2
  let new_versions := versionSet headContent
  let added := new_versions \ old_versions
  if is_consolidation ∧ 3 < added.card then
    match metadata with
    | some kv =>
        let current := lstripV (kv.getD "")
        if current ∈ added then ([current], true)
        else (sortVersions added, true)
    | none => (sortVersions added, true)
  else (sortVersions added, false)

/-- The set of newly added versions between the two snapshots, as the
script computes it (`added = new_versions - old_versions`). -/
def addedVersions (baseContent : Option String) (headContent : String) :
    Finset String :=
  versionSet headContent \ (baseSnapshot baseContent).1

/-! File reads and the validator -/

/-- Does the haystack have the needle as a contiguous substring
(Python's `needle in content`)? -/
def hasInfix (needle : List Char) : List Char → Bool
  | [] => needle.isEmpty
  | c :: cs => if needle.isPrefixOf (c :: cs) then true else hasInfix needle cs

/-- Python's `needle in content` on strings. -/
def strContains (content needle : String) : Bool := hasInfix needle.data content.data

/-- The working tree the script reads from: each path is mapped to the
text of that file, or `none` when the file does not exist. -/
abbrev FileSys := String → Option String

/-- The errors a validation step can raise: `missingFile` embeds the
`FileNotFoundError` of `path.read_text()`, `missingText` the
`ValueError(f"{path} missing required link/text: {needle}")`. -/
inductive CheckError where
  | missingFile (path : String)
  | missingText (path : String) (needle : String)
deriving DecidableEq

instance {ε α : Type} [DecidableEq ε] [DecidableEq α] : DecidableEq (Except ε α) :=
  fun x y =>
    match x, y with
    | .ok a, .ok b =>
        match decEq a b with
        | isTrue h => isTrue (h ▸ rfl)
        | isFalse h => isFalse (fun e => h (Except.ok.inj e))
    | .error a, .error b =>
        match decEq a b with
        | isTrue h => isTrue (h ▸ rfl)
        | isFalse h => isFalse (fun e => h (Except.error.inj e))
    | .ok _, .error _ => isFalse (fun e => Except.noConfusion e)
    | .error _, .ok _ => isFalse (fun e => Except.noConfusion e)

/-- The constant `RELEASES_FILE = Path("docs/releases/RELEASES.md")`. -/
def RELEASES_FILE : String := "docs/releases/RELEASES.md"

/-- The embedding of `require_contains`: read the file at `path` and fail
unless its text contains `needle`. -/
def require_contains (fs : FileSys) (path needle : String) : Except CheckError Unit :=
  match fs path with
  | none => .error (.missingFile path)
  | some content =>
      if strContains content needle then .ok () else .error (.missingText path needle)

/-- The embedding of `validate_release_in_consolidated`: the three
reference checks run in order, stopping at the first failure. -/
def validate_release_in_consolidated (fs : FileSys) (version : String) :
    Except CheckError Unit :=
  (require_contains fs RELEASES_FILE ("[" ++ version ++ "]")).bind fun _ =>
  (require_contains fs "docs/README.md" "releases/RELEASES.md").bind fun _ =>
  require_contains fs "docs/operations/runbooks/README.md" "../../releases/RELEASES.md"

/-! The entry point -/

/-- The environment variables `main` consults (`os.getenv` yields `none`
when the variable is unset). -/
structure Env where
  github_event_name : Option String
  pr_base_sha : Option String
  pr_head_sha : Option String

/-- The externally supplied state of one run: the `git show` result for
the base snapshot, the `git diff --name-only` file list, the state of
`docs/metadata.json`, and the working tree. -/
structure Repo where
  baseContent : Option String
  modifiedFiles : List String
  metadata : Metadata
  fs : FileSys

/-- Python's `str.strip()`: drop whitespace from both ends. -/
def pyStrip (s : String) : String :=
  String.mk (((s.data.dropWhile Char.isWhitespace).reverse.dropWhile Char.isWhitespace).reverse)

/-- How a run of `main` ends: each constructor is one of the script's
terminal behaviours (a printed skip/pass line, a raised `ValueError`, a
raised `FileNotFoundError`, or a successful validation pass). -/
inductive MainOutcome where
  | skippedNonPR
  | configError (msg : String)
  | passedNotModified
  | passedNoNew
  | readFailure (path : String)
  | validationFailure (version : String) (e : CheckError)
  | passed (versions : List String) (consolidation : Bool)
deriving DecidableEq

/-- The status line printed for the outcomes that terminate the run with
a print, `none` for the raising outcomes. -/
def MainOutcome.statusLine : MainOutcome → Option String
  | .skippedNonPR => some "release docs guard skipped (non-PR)"
  | .configError _ => none
  | .passedNotModified => some "release docs guard passed (RELEASES.md not modified)"
  | .passedNoNew => some "release docs guard passed (no new release entries detected)"
  | .readFailure _ => none
  | .validationFailure _ _ => none
  | .passed _ _ => some "release docs guard passed"

/-- The `for version in new_versions` loop calling
`validate_release_in_consolidated(version)`: the first failing version
aborts the run. -/
def validateAll (fs : FileSys) : List String → Except (String × CheckError) Unit
  | [] => .ok ()
  | v :: rest =>
      match validate_release_in_consolidated fs v with
      | .error e => .error (v, e)
      | .ok _ => validateAll fs rest

/-- The embedding of `main`, as a total function from the environment and
the repository state to the outcome of the run. -/
def main (env : Env) (repo : Repo) : MainOutcome :=
  if env.github_event_name.getD "" ≠ "pull_request" then .skippedNonPR
  else
    let base_sha := pyStrip (env.pr_base_sha.getD "")
    let head_sha := pyStrip (env.pr_head_sha.getD "")
    if base_sha = "" ∨ head_sha = "" then
      .configError "PR_BASE_SHA and PR_HEAD_SHA must be set for release docs guard"
    else if "docs/releases/RELEASES.md" ∉ repo.modifiedFiles then .passedNotModified
    else
      match repo.fs RELEASES_FILE with
      | none => .readFailure RELEASES_FILE
      | some headContent =>
          let vc := get_releases_diff repo.baseContent headContent repo.metadata
          if vc.1 = [] then .passedNoNew
          else
            match validateAll repo.fs vc.1 with
            | .error ve => .validationFailure ve.1 ve.2
            | .ok _ => .passed vc.1 vc.2

/-! Spec-side semantic-version order.

Modelled from the spec: the data model calls a version a semantic version
`MAJOR.MINOR.PATCH`, and claim C3 reads the non-consolidation list as
sorted ascending as version numbers.  The following compares two version
strings by their numeric components; it is deliberately written from the
spec's words, to be compared with the string sort the code performs. -/

/-- Numeric value of a digit run. -/
def digitsToNat (l : List Char) : Nat :=
  l.foldl (fun n c => 10 * n + (c.toNat - 48)) 0

/-- Modelled from the spec: parse `MAJOR.MINOR.PATCH` into its numeric
components. -/
def parseSemver (s : String) : Option (Nat × Nat × Nat) :=
  (takeDigits1 s.data).bind fun p1 =>
  (expectChars ['.'] p1.2).bind fun r1 =>
  (takeDigits1 r1).bind fun p2 =>
  (expectChars ['.'] p2.2).bind fun r2 =>
  (takeDigits1 r2).bind fun p3 =>
  if p3.2.isEmpty then
    some (digitsToNat p1.1, digitsToNat p2.1, digitsToNat p3.1)
  else none

/-- Modelled from the spec: `a` precedes-or-equals `b` as version numbers
(componentwise lexicographic on the numeric triples). -/
def semverNumLe (a b : String) : Bool :=
  match parseSemver a, parseSemver b with
  | some (a1, a2, a3), some (b1, b2, b3) =>
      decide (a1 < b1 ∨ (a1 = b1 ∧ (a2 < b2 ∨ (a2 = b2 ∧ a3 ≤ b3))))
  | _, _ => false

/-- Modelled from the spec: a list is ascending as version numbers when
each adjacent pair is. -/
def ascendingNumeric : List String → Bool
  | [] => true
  | [_] => true
  | a :: b :: rest => semverNumLe a b && ascendingNumeric (b :: rest)

/-! Concrete fixtures used by witnesses and counterexamples -/

/-- A head snapshot introducing four versions at once. -/
def headFour : String :=
  "## [1.0.0] - 2026-01-01\n## [1.1.0] - 2026-01-02\n## [1.2.0] - 2026-01-03\n## [1.3.0] - 2026-01-04"

/-- A compatibility-matrix document that does not mention version
`1.2.0`. -/
def compatMatrix : String := "| version | supported |\n| 1.0.0 | yes |"

/-- A working tree whose release-notes document announces `1.2.0`, whose
navigation files link to the release notes, and whose compatibility
matrix lacks `1.2.0`. -/
def fsC2 : FileSys := fun path =>
  if path = "docs/releases/RELEASES.md" then some "## [1.2.0] - 2026-01-01"
  else if path = "docs/README.md" then some "Releases: releases/RELEASES.md"
  else if path = "docs/operations/runbooks/README.md" then some "See ../../releases/RELEASES.md"
  else if path = "docs/COMPATIBILITY.md" then some compatMatrix
  else none

/-- A working tree with all three checked references present for
version `2.0.0`. -/
def fsNav : FileSys := fun path =>
  if path = "docs/releases/RELEASES.md" then some "## [2.0.0] - 2026-02-02"
  else if path = "docs/README.md" then some "releases/RELEASES.md"
  else if path = "docs/operations/runbooks/README.md" then some "../../releases/RELEASES.md"
  else none

/-- A pull-request environment whose base revision variable holds only
whitespace. -/
def envMissing : Env := ⟨some "pull_request", some "   ", some "beef"⟩

/-- A repository state with nothing in it. -/
def repoEmptyA : Repo := ⟨none, [], none, fun _ => none⟩

/-- A different repository state, to show independence from the diff. -/
def repoEmptyB : Repo := ⟨some "x", ["y"], some none, fun _ => some "z"⟩

/-- A pull-request environment with both revision identifiers set. -/
def envPR : Env := ⟨some "pull_request", some "aaa", some "bbb"⟩

/-- A repository state where the release-notes document was modified but
its version headers are unchanged from the base snapshot. -/
def repoNoNew : Repo :=
  ⟨some "## [1.2.0] - 2026-01-01", ["docs/releases/RELEASES.md"], none,
    fun path => if path = "docs/releases/RELEASES.md" then some "## [1.2.0] - 2026-01-01" else none⟩

/-! Helper lemmas -/

theorem coe_msort (m : Multiset String) : (msort m : Multiset String) = m :=
  Quot.inductionOn m fun l => Quot.sound (List.perm_insertionSort _ l)

theorem sorted_msort (m : Multiset String) : List.Sorted strLe (msort m) :=
  Quot.inductionOn m fun l => List.sorted_insertionSort _ l

theorem mem_sortVersions {v : String} {s : Finset String} :
    v ∈ sortVersions s ↔ v ∈ s := by
  rw [sortVersions, ← Multiset.mem_coe, coe_msort]
  exact Finset.mem_def.symm

theorem toFinset_sortVersions (s : Finset String) : (sortVersions s).toFinset = s := by
  apply Finset.ext
  intro v
  rw [List.mem_toFinset, mem_sortVersions]

theorem sorted_sortVersions (s : Finset String) : List.Sorted strLe (sortVersions s) :=
  sorted_msort s.val

theorem mem_versionSet {v : String} {c : String} :
    v ∈ versionSet c ↔ ∃ l ∈ splitLines c, parseHeaderLine l = some v := by
  simp [versionSet, extract_version_headers, List.mem_toFinset, List.mem_filterMap]

theorem versionSet_eq_of_perm {c₁ c₂ : String}
    (h : (splitLines c₁).Perm (splitLines c₂)) : versionSet c₁ = versionSet c₂ :=
  List.toFinset_eq_of_perm _ _ (h.filterMap parseHeaderLine)

theorem parseHeaderLine_ne_empty {line v : String}
    (h : parseHeaderLine line = some v) : v ≠ "" := by
  intro hv
  subst hv
  simp only [parseHeaderLine, Option.bind_eq_some] at h
  obtain ⟨r0, -, h⟩ := h
  obtain ⟨p1, -, h⟩ := h
  obtain ⟨d1, rp1⟩ := p1
  obtain ⟨r1, -, h⟩ := h
  obtain ⟨p2, -, h⟩ := h
  obtain ⟨d2, rp2⟩ := p2
  obtain ⟨r2, -, h⟩ := h
  obtain ⟨p3, -, h⟩ := h
  obtain ⟨d3, rp3⟩ := p3
  obtain ⟨r3, -, h⟩ := h
  obtain ⟨r4, -, h⟩ := h
  obtain ⟨r5, -, h⟩ := h
  obtain ⟨r6, -, h⟩ := h
  obtain ⟨r7, -, h⟩ := h
  obtain ⟨r8, -, h⟩ := h
  by_cases hr : r8.isEmpty
  · rw [if_pos hr] at h
    have hdata : d1 ++ '.' :: d2 ++ '.' :: d3 = "".data :=
      congrArg String.data (Option.some.inj h)
    simp at hdata
  · rw [if_neg hr] at h
    exact Option.noConfusion h

theorem get_releases_diff_base_present (c head : String) (md : Metadata) :
    get_releases_diff (some c) head md =
      (sortVersions (addedVersions (some c) head), false) := rfl

theorem require_contains_ok_iff (fs : FileSys) (path needle : String) :
    require_contains fs path needle = .ok () ↔
      ∃ c, fs path = some c ∧ strContains c needle = true := by
  unfold require_contains
  cases hfs : fs path with
  | none => simp
  | some c =>
      by_cases hc : strContains c needle
      · simp [hc]
      · simp [hc]

theorem require_contains_congr {fs g : FileSys} (path needle : String)
    (h : g path = fs path) :
    require_contains g path needle = require_contains fs path needle := by
  unfold require_contains
  rw [h]

theorem require_contains_none {fs : FileSys} {path needle : String} (h : fs path = none) :
    require_contains fs path needle = .error (.missingFile path) := by
  unfold require_contains
  rw [h]

theorem require_contains_some_pos {fs : FileSys} {path needle c : String}
    (h : fs path = some c) (hc : strContains c needle = true) :
    require_contains fs path needle = .ok () := by
  unfold require_contains
  rw [h]
  exact if_pos hc

theorem require_contains_some_neg {fs : FileSys} {path needle c : String}
    (h : fs path = some c) (hc : strContains c needle = false) :
    require_contains fs path needle = .error (.missingText path needle) := by
  unfold require_contains
  rw [h]
  exact if_neg (by simp [hc])

theorem validate_eq (fs : FileSys) (v : String) :
    validate_release_in_consolidated fs v =
      (require_contains fs RELEASES_FILE ("[" ++ v ++ "]")).bind (fun _ =>
        (require_contains fs "docs/README.md" "releases/RELEASES.md").bind (fun _ =>
          require_contains fs "docs/operations/runbooks/README.md"
            "../../releases/RELEASES.md")) := rfl

theorem except_bind_ok_iff {x : Except CheckError Unit} {f : Unit → Except CheckError Unit} :
    x.bind f = .ok () ↔ (x = .ok () ∧ f () = .ok ()) := by
  cases x with
  | error e => simp [Except.bind]
  | ok u => cases u; simp [Except.bind]

theorem except_bind_error {x : Except CheckError Unit} {f : Unit → Except CheckError Unit}
    {e : CheckError} (h : x = .error e) : x.bind f = .error e := by
  subst h
  rfl

theorem except_bind_ok {x : Except CheckError Unit} {f : Unit → Except CheckError Unit}
    (h : x = .ok ()) : x.bind f = f () := by
  subst h
  rfl

theorem gdiff_current_hit (head : String) (kv : Option String)
    (hbig : 3 < (addedVersions none head).card)
    (hmem : lstripV (kv.getD "") ∈ addedVersions none head) :
    get_releases_diff none head (some kv) = ([lstripV (kv.getD "")], true) := by
  simp only [addedVersions, baseSnapshot, Finset.sdiff_empty] at hbig hmem
  simp [get_releases_diff, baseSnapshot, hbig, hmem]

theorem gdiff_current_miss (head : String) (kv : Option String)
    (hbig : 3 < (addedVersions none head).card)
    (hmem : lstripV (kv.getD "") ∉ addedVersions none head) :
    get_releases_diff none head (some kv) = (sortVersions (addedVersions none head), true) := by
  simp only [addedVersions, baseSnapshot, Finset.sdiff_empty] at hbig hmem
  simp [get_releases_diff, baseSnapshot, addedVersions, hbig, hmem]

theorem head_dropWhile_ne {p : Char → Bool} :
    ∀ (l : List Char) (x : Char), (l.dropWhile p).head? = some x → p x = false := by
  intro l
  induction l with
  | nil => intro x h; simp [List.dropWhile] at h
  | cons a as ih =>
      intro x h
      rw [List.dropWhile_cons] at h
      by_cases hp : p a
      · rw [if_pos hp] at h
        exact ih x h
      · rw [if_neg hp] at h
        simp only [List.head?_cons, Option.some.injEq] at h
        subst h
        exact Bool.eq_false_iff.mpr hp

theorem empty_not_mem_added (head : String) : "" ∉ addedVersions none head := by
  intro hmem
  simp only [addedVersions, baseSnapshot, Finset.sdiff_empty] at hmem
  rw [mem_versionSet] at hmem
  obtain ⟨l, -, hp⟩ := hmem
  exact parseHeaderLine_ne_empty hp rfl

/-! The claims -/

/-- C1: for every pair of text snapshots, the version-set differ returns
exactly the set of version strings matching the heading pattern in the
head snapshot minus those matching in the base snapshot; when both
snapshots carry identical version headers the added set is empty; and the
result does not depend on the order in which the lines appear in either
text.  The final conjunct ties the set used by `get_releases_diff` (with
the base snapshot present) back to this set difference. -/
theorem spec_C1 (base head : String) :
    (∀ v, v ∈ addedVersions (some base) head ↔
        ((∃ l ∈ splitLines head, parseHeaderLine l = some v) ∧
          ¬ ∃ l ∈ splitLines base, parseHeaderLine l = some v))
    ∧ (versionSet head = versionSet base → addedVersions (some base) head = ∅)
    ∧ (∀ base₂ head₂ : String, (splitLines base₂).Perm (splitLines base) →
        (splitLines head₂).Perm (splitLines head) →
        addedVersions (some base₂) head₂ = addedVersions (some base) head)
    ∧ (∀ md : Metadata,
        ((get_releases_diff (some base) head md).1).toFinset
          = addedVersions (some base) head) := by
  refine ⟨?_, ?_, ?_, ?_⟩
  · intro v
    simp [addedVersions, baseSnapshot, Finset.mem_sdiff, mem_versionSet]
  · intro h
    simp [addedVersions, baseSnapshot, h, Finset.sdiff_self]
  · intro b2 h2 hb hh
    simp only [addedVersions, baseSnapshot]
    rw [versionSet_eq_of_perm hb, versionSet_eq_of_perm hh]
  · intro md
    rw [get_releases_diff_base_present]
    exact toFinset_sortVersions (addedVersions (some base) head)

/-- Witness for C1 at a concrete pair of identical snapshots: the added
set is empty. -/
theorem spec_C1_witness :
    addedVersions (some "## [1.0.0] - 2026-01-01") "## [1.0.0] - 2026-01-01" = ∅ :=
  (spec_C1 "## [1.0.0] - 2026-01-01" "## [1.0.0] - 2026-01-01").2.1 rfl

/-- C2: the claim says the validator checks a compatibility-matrix
document for the version and raises a missing-reference error naming that
document when the version is absent from it.  The code has no such check:
at the failing input (head release notes announce `1.2.0`, both
navigation links present, compatibility matrix without `1.2.0`) the
validator completes without error, and its outcome is unchanged whatever
text any compatibility-matrix document holds. -/
theorem spec_C2_code_behavior :
    validate_release_in_consolidated fsC2 "1.2.0" = .ok ()
    ∧ strContains compatMatrix "1.2.0" = false
    ∧ (∀ m : String, validate_release_in_consolidated
        (fun p => if p = "docs/COMPATIBILITY.md" then some m else fsC2 p) "1.2.0" = .ok ()) := by
  refine ⟨by decide, by decide, ?_⟩
  intro m
  rfl

/-- C3 counterexample: with the base snapshot present (flag false) and
head versions `2.0.0` and `10.0.0`, the returned list is
`["10.0.0", "2.0.0"]` — Python string sort — which is not ascending as
version numbers (`2 < 10` numerically), refuting the claim that the
non-consolidation list is sorted ascending as version numbers. -/
theorem spec_C3_counterexample :
    get_releases_diff (some "") "## [2.0.0] - 2026-01-01\n## [10.0.0] - 2026-01-02" none
        = (["10.0.0", "2.0.0"], false)
    ∧ ascendingNumeric ["10.0.0", "2.0.0"] = false
    ∧ ascendingNumeric ["2.0.0", "10.0.0"] = true := by decide

/-- C3 (amended): the returned consolidation flag is true iff the base
revision lacked the document entirely and more than 3 versions were
added; whenever the flag is false the returned list is exactly the added
versions sorted ascending as strings (code-point lexicographic order,
Python's `sorted`), not as numeric semantic versions. -/
theorem spec_C3_amended (b : Option String) (head : String) (md : Metadata) :
    ((get_releases_diff b head md).2 = true ↔
        (b = none ∧ 3 < (addedVersions b head).card))
    ∧ ((get_releases_diff b head md).2 = false →
        (get_releases_diff b head md).1 = sortVersions (addedVersions b head)
        ∧ List.Sorted strLe (get_releases_diff b head md).1) := by
  cases b with
  | some c =>
      rw [get_releases_diff_base_present]
      constructor
      · simp
      · intro _
        exact ⟨rfl, sorted_sortVersions (addedVersions (some c) head)⟩
  | none =>
      by_cases hbig : 3 < (addedVersions none head).card
      · have h2 : (get_releases_diff none head md).2 = true := by
          have hbig' := hbig
          simp only [addedVersions, baseSnapshot, Finset.sdiff_empty] at hbig'
          cases md with
          | none => simp [get_releases_diff, baseSnapshot, hbig']
          | some kv =>
              by_cases hm : lstripV (kv.getD "") ∈ versionSet head
              · simp [get_releases_diff, baseSnapshot, hbig', hm]
              · simp [get_releases_diff, baseSnapshot, hbig', hm]
        constructor
        · simp [h2, hbig]
        · intro hf
          rw [h2] at hf
          cases hf
      · have heq : get_releases_diff none head md
            = (sortVersions (addedVersions none head), false) := by
          have hbig' := hbig
          simp only [addedVersions, baseSnapshot, Finset.sdiff_empty] at hbig'
          simp [get_releases_diff, baseSnapshot, addedVersions, hbig']
        rw [heq]
        constructor
        · simp [hbig]
        · intro _
          exact ⟨rfl, sorted_sortVersions (addedVersions none head)⟩

/-- Witness for the amended C3 at a concrete run whose flag is false: the
returned list is the string-sorted added set, and it is sorted for the
code-point order. -/
theorem spec_C3_witness :
    (get_releases_diff (some "") "## [2.0.0] - 2026-01-01" none).1
        = sortVersions (addedVersions (some "") "## [2.0.0] - 2026-01-01")
    ∧ List.Sorted strLe (get_releases_diff (some "") "## [2.0.0] - 2026-01-01" none).1 :=
  (spec_C3_amended (some "") "## [2.0.0] - 2026-01-01" none).2 (by decide)

/-- C4: when retrieval of the base snapshot fails (the document was
absent at the base revision) the differ does not raise — in this
embedding `baseSnapshot` and `get_releases_diff` are total functions —
the base version set is empty, the side-channel introduction flag is
true, and consequently the added set is the whole head version set. -/
theorem spec_C4 :
    baseSnapshot none = (∅, true)
    ∧ ∀ head : String, addedVersions none head = versionSet head :=
  ⟨rfl, fun head => by simp [addedVersions, baseSnapshot]⟩

/-- C5: with the introduction flag true (base snapshot absent), more than
3 added versions, the metadata file present, and the normalized current
release among the added set, `get_releases_diff` returns the singleton
list holding only that current release, with consolidation flag true. -/
theorem spec_C5 (head : String) (kv : Option String)
    (hbig : 3 < (addedVersions none head).card)
    (hmem : lstripV (kv.getD "") ∈ addedVersions none head) :
    get_releases_diff none head (some kv) = ([lstripV (kv.getD "")], true) :=
  gdiff_current_hit head kv hbig hmem

/-- Witness for C5: four versions introduced at once, metadata current
release `v1.2.0`, result is the singleton `["1.2.0"]` with flag true. -/
theorem spec_C5_witness :
    get_releases_diff none headFour (some (some "v1.2.0"))
      = ([lstripV ((some "v1.2.0" : Option String).getD "")], true) :=
  spec_C5 headFour (some "v1.2.0") (by decide) (by decide)

/-- C6: with the introduction flag true, more than 3 added versions, the
metadata file present but its normalized current release not among the
added set, `get_releases_diff` falls back to returning all added versions
sorted, with consolidation flag true. -/
theorem spec_C6 (head : String) (kv : Option String)
    (hbig : 3 < (addedVersions none head).card)
    (hmem : lstripV (kv.getD "") ∉ addedVersions none head) :
    get_releases_diff none head (some kv)
        = (sortVersions (addedVersions none head), true)
    ∧ (sortVersions (addedVersions none head)).toFinset = addedVersions none head :=
  ⟨gdiff_current_miss head kv hbig hmem, toFinset_sortVersions (addedVersions none head)⟩

/-- Witness for C6: four versions introduced at once and a current
release `9.9.9` that is not among them. -/
theorem spec_C6_witness :
    get_releases_diff none headFour (some (some "9.9.9"))
        = (sortVersions (addedVersions none headFour), true)
    ∧ (sortVersions (addedVersions none headFour)).toFinset = addedVersions none headFour :=
  spec_C6 headFour (some "9.9.9") (by decide) (by decide)

/-- C7: the validator completes without error iff the release-notes
document contains `[version]`, the documentation index contains
`releases/RELEASES.md`, and the runbook index contains
`../../releases/RELEASES.md`; any error it raises is a missing-file or
missing-text error naming the offending path and the missing needle; and
the run fails fast — a failure of an earlier check fixes the result
whatever the later files hold. -/
theorem spec_C7 (fs : FileSys) (v : String) :
    (validate_release_in_consolidated fs v = .ok () ↔
        ((∃ c, fs RELEASES_FILE = some c ∧ strContains c ("[" ++ v ++ "]") = true)
          ∧ (∃ c, fs "docs/README.md" = some c
              ∧ strContains c "releases/RELEASES.md" = true)
          ∧ (∃ c, fs "docs/operations/runbooks/README.md" = some c
              ∧ strContains c "../../releases/RELEASES.md" = true)))
    ∧ (∀ path needle : String, ∀ e : CheckError,
        require_contains fs path needle = .error e →
        e = .missingFile path ∨ e = .missingText path needle)
    ∧ (∀ e : CheckError, require_contains fs RELEASES_FILE ("[" ++ v ++ "]") = .error e →
        ∀ g : FileSys, g RELEASES_FILE = fs RELEASES_FILE →
          validate_release_in_consolidated g v = .error e)
    ∧ (∀ e : CheckError, require_contains fs RELEASES_FILE ("[" ++ v ++ "]") = .ok () →
        require_contains fs "docs/README.md" "releases/RELEASES.md" = .error e →
        ∀ g : FileSys, g RELEASES_FILE = fs RELEASES_FILE →
          g "docs/README.md" = fs "docs/README.md" →
          validate_release_in_consolidated g v = .error e)
    ∧ (require_contains fs RELEASES_FILE ("[" ++ v ++ "]") = .ok () →
        require_contains fs "docs/README.md" "releases/RELEASES.md" = .ok () →
        validate_release_in_consolidated fs v =
          require_contains fs "docs/operations/runbooks/README.md"
            "../../releases/RELEASES.md") := by
  refine ⟨?_, ?_, ?_, ?_, ?_⟩
  · rw [validate_eq, except_bind_ok_iff, except_bind_ok_iff,
      require_contains_ok_iff, require_contains_ok_iff, require_contains_ok_iff]
  · intro path needle e h
    cases hfs : fs path with
    | none =>
        rw [require_contains_none hfs] at h
        exact Or.inl (Except.error.inj h).symm
    | some c =>
        cases hc : strContains c needle with
        | true =>
            rw [require_contains_some_pos hfs hc] at h
            exact Except.noConfusion h
        | false =>
            rw [require_contains_some_neg hfs hc] at h
            exact Or.inr (Except.error.inj h).symm
  · intro e h1 g hg
    rw [validate_eq, require_contains_congr _ _ hg]
    exact except_bind_error h1
  · intro e h1 h2 g hg1 hg2
    rw [validate_eq, require_contains_congr _ _ hg1, except_bind_ok h1,
      require_contains_congr _ _ hg2]
    exact except_bind_error h2
  · intro h1 h2
    rw [validate_eq, except_bind_ok h1, except_bind_ok h2]

/-- Witness for C7: a working tree holding all three references for
version `2.0.0` makes the validator complete without error. -/
theorem spec_C7_witness : validate_release_in_consolidated fsNav "2.0.0" = .ok () :=
  (spec_C7 fsNav "2.0.0").1.mpr
    ⟨⟨"## [2.0.0] - 2026-02-02", by decide, by decide⟩,
     ⟨"releases/RELEASES.md", by decide, by decide⟩,
     ⟨"../../releases/RELEASES.md", by decide, by decide⟩⟩

/-- C8: in a pull-request context with either required revision
identifier unset or whitespace-only, `main` raises the fatal
configuration error, and its outcome does not depend on the repository
state at all — no diff and no file validation is performed. -/
theorem spec_C8 (env : Env) (repo repo2 : Repo)
    (hpr : env.github_event_name.getD "" = "pull_request")
    (hmiss : pyStrip (env.pr_base_sha.getD "") = ""
      ∨ pyStrip (env.pr_head_sha.getD "") = "") :
    main env repo
        = .configError "PR_BASE_SHA and PR_HEAD_SHA must be set for release docs guard"
    ∧ main env repo = main env repo2 := by
  have key : ∀ r : Repo, main env r =
      .configError "PR_BASE_SHA and PR_HEAD_SHA must be set for release docs guard" := by
    intro r
    cases hmiss with
    | inl h => simp [main, hpr, h]
    | inr h => simp [main, hpr, h]
  exact ⟨key repo, (key repo).trans (key repo2).symm⟩

/-- Witness for C8: a pull-request environment whose base identifier is
whitespace yields the configuration error on two unrelated repository
states. -/
theorem spec_C8_witness :
    main envMissing repoEmptyA
        = .configError "PR_BASE_SHA and PR_HEAD_SHA must be set for release docs guard"
    ∧ main envMissing repoEmptyA = main envMissing repoEmptyB :=
  spec_C8 envMissing repoEmptyA repoEmptyB (by decide) (Or.inl (by decide))

/-- C9: when the release-notes document was modified but the computed set
of newly added versions is empty, `main` ends with the pass outcome whose
printed status line is "release docs guard passed (no new release entries
detected)", and the validator is never consulted: the outcome is the same
for every working tree agreeing on the release-notes document alone. -/
theorem spec_C9 (env : Env) (repo : Repo) (headContent : String)
    (hpr : env.github_event_name.getD "" = "pull_request")
    (hbase : pyStrip (env.pr_base_sha.getD "") ≠ "")
    (hhead : pyStrip (env.pr_head_sha.getD "") ≠ "")
    (hmod : "docs/releases/RELEASES.md" ∈ repo.modifiedFiles)
    (hread : repo.fs RELEASES_FILE = some headContent)
    (hempty : (get_releases_diff repo.baseContent headContent repo.metadata).1 = []) :
    main env repo = .passedNoNew
    ∧ (main env repo).statusLine
        = some "release docs guard passed (no new release entries detected)"
    ∧ (∀ g : FileSys, g RELEASES_FILE = some headContent →
        main env { repo with fs := g } = .passedNoNew) := by
  have key : ∀ g : FileSys, g RELEASES_FILE = some headContent →
      main env { repo with fs := g } = .passedNoNew := by
    intro g hg
    simp [main, hpr, hbase, hhead, hmod, hg, hempty]
  have h0 : main env repo = .passedNoNew := by
    have := key repo.fs hread
    simpa using this
  exact ⟨h0, by rw [h0]; rfl, key⟩

/-- Witness for C9: a concrete pull-request run where the document was
modified but its version headers equal the base snapshot. -/
theorem spec_C9_witness : main envPR repoNoNew = .passedNoNew :=
  (spec_C9 envPR repoNoNew "## [1.2.0] - 2026-01-01" (by decide) (by decide) (by decide)
    (by decide) (by decide) (by decide)).1

/-- C10: `get_releases_diff` normalizes the metadata current release with
`lstrip("v")` — every leading `'v'` is removed and nothing else — so a
metadata value `v1.2.0` matches the added version `1.2.0`; and when the
`current_release` key is absent the normalized value is the empty string,
which is never among the extracted versions, so the validate-all fallback
applies. -/
theorem spec_C10 (head : String) :
    lstripV "v1.2.0" = "1.2.0"
    ∧ (∀ s : String, ∃ k : Nat, s.data = List.replicate k 'v' ++ (lstripV s).data
          ∧ (lstripV s).data.head? ≠ some 'v')
    ∧ "" ∉ addedVersions none head
    ∧ (3 < (addedVersions none head).card → "1.2.0" ∈ addedVersions none head →
        get_releases_diff none head (some (some "v1.2.0")) = (["1.2.0"], true))
    ∧ (3 < (addedVersions none head).card →
        get_releases_diff none head (some none)
          = (sortVersions (addedVersions none head), true)) := by
  refine ⟨by decide, ?_, empty_not_mem_added head, ?_, ?_⟩
  · intro s
    refine ⟨(s.data.takeWhile (fun c => c = 'v')).length, ?_, ?_⟩
    · have hsplit : s.data.takeWhile (fun c => c = 'v')
          ++ s.data.dropWhile (fun c => c = 'v') = s.data :=
        List.takeWhile_append_dropWhile _ _
      have hrep : s.data.takeWhile (fun c => c = 'v') =
          List.replicate (s.data.takeWhile (fun c => c = 'v')).length 'v' := by
        apply List.eq_replicate_of_mem
        intro b hb
        have := List.mem_takeWhile_imp hb
        simpa using this
      calc s.data
          = s.data.takeWhile (fun c => c = 'v')
            ++ s.data.dropWhile (fun c => c = 'v') := hsplit.symm
        _ = List.replicate (s.data.takeWhile (fun c => c = 'v')).length 'v'
            ++ (lstripV s).data := by
            rw [← hrep]; rfl
    · intro hhead
      have := head_dropWhile_ne (p := fun c => c = 'v') s.data 'v' hhead
      simp at this
  · intro hbig hmem
    have e : lstripV ((some "v1.2.0" : Option String).getD "") = "1.2.0" := by decide
    have h := gdiff_current_hit head (some "v1.2.0") hbig (by rw [e]; exact hmem)
    rw [e] at h
    exact h
  · intro hbig
    have e : lstripV ((none : Option String).getD "") = "" := by decide
    exact gdiff_current_miss head none hbig (by rw [e]; exact empty_not_mem_added head)

/-- Witness for C10: four versions introduced at once, metadata current
release `v1.2.0`; the normalized value `1.2.0` is matched and returned as
the singleton validation set. -/
theorem spec_C10_witness :
    get_releases_diff none headFour (some (some "v1.2.0")) = (["1.2.0"], true) :=
  (spec_C10 headFour).2.2.2.1 (by decide) (by decide)

end ReleaseGuard
